import Mathlib

/-!
Verification development for the DTMF power switch controller
(source: DTMF power switch sketch, November 2024 revision).

The controller is single-threaded: a cooperative scheduler (`loop`)
interleaves DTMF polling, a command timeout, periodic station ID and
per-relay auto-off timers, all driven by wraparound-safe comparisons on
the unsigned 32-bit millisecond counter.

Modelling conventions:
* Machine integers are `Nat` reduced modulo 2^32 where the C code relies
  on unsigned overflow; the cast to signed long is made explicit.
* Characters are their (unsigned) byte codes; the null terminator is 0.
* Time inside one scheduler tick is the tick's `now` (the value of
  millis() at loop entry); blocking delays inside a tick are real-time
  pacing concerns outside the state model.
* Audio output is modelled at two granularities: the system-level model
  records each Morse transmission as a transcript event, while a
  separate component-level model of sendChar / sendElements / SendMorse
  renders the individual dit / dah / gap elements.
-/

namespace DTMF

/-- 2^32, the modulus of the unsigned long millisecond counter. -/
def ULONG_MOD : Nat := 4294967296

/-- 2^31, the magnitude threshold of a signed 32-bit long. -/
def HALF_MOD : Nat := 2147483648

/-- Maximum time (ms) to complete a command. -/
def CMD_PERIOD : Nat := 60000

/-- How often (ms) to check for DTMF input. -/
def DTMF_PERIOD : Nat := 100

/-- Time (ms) until a relay turns off after being activated by command. -/
def RELAY_PERIOD : Nat := 300000

/-- Time (ms) between ID checks. -/
def ID_PERIOD : Nat := 30000

/-- Number of configured relays (relayPin has two entries). -/
abbrev numRelays : Nat := 2

/-- Arduino LOW level. -/
def LOW : Nat := 0

/-- Arduino HIGH level. -/
def HIGH : Nat := 1

/-- On state of each relay pin: onState[] = \x7bLOW, LOW\x7d. -/
def onState : Fin numRelays → Nat := fun _ => LOW

/-- C logical negation as applied to a pin level (!onState[i]). -/
def lnot (x : Nat) : Nat := if x = 0 then 1 else 0

/-- Status message "UP" (relay-off acknowledgment), as byte codes. -/
def offMsg : List Nat := [85, 80]

/-- Status message "DOWN" (timed relay-on acknowledgment). -/
def onMsg : List Nat := [68, 79, 87, 78]

/-- Status message "OFF" (held relay-on acknowledgment). -/
def perMsg : List Nat := [79, 70, 70]

/-- Status message "CTO" (command timeout). -/
def toMsg : List Nat := [67, 84, 79]

/-- Station identification message "N4BRF/RC". -/
def idMsg : List Nat := [78, 52, 66, 82, 70, 47, 82, 67]

/-- Status message "VCC " (supply-voltage report header). -/
def vccMsg : List Nat := [86, 67, 67, 32]

/-- One recorded transmission: either a SendMorse call (prefix byte, 0
meaning no prefix, and the message bytes), or a single character sent
directly by sendChar under manual PTT control. -/
inductive TxEvent where
  | morse (pfx : Nat) (msg : List Nat)
  | chr (c : Nat)
deriving DecidableEq, Repr

/-- The controller's mutable global state. -/
structure Sys where
  /-- Level currently driven on each relay pin. -/
  pinLevel : Fin numRelays → Nat
  /-- relayState[]: last level written for each relay. -/
  relayState : Fin numRelays → Nat
  /-- stayOn[]: true if the relay should not time out. -/
  stayOn : Fin numRelays → Bool
  /-- nextRelay[]: millisecond deadline at which each relay turns off. -/
  nextRelay : Fin numRelays → Nat
  /-- dtmfKey: last key received and not yet processed (0 = none). -/
  dtmfKey : Nat
  /-- waitForSpace: true if waiting for space between DTMF tones. -/
  waitForSpace : Bool
  /-- nextDTMF: millisecond deadline of the next DTMF poll. -/
  nextDTMF : Nat
  /-- nextID: millisecond deadline of the next ID check. -/
  nextID : Nat
  /-- idNeeded: true if PTT has been keyed during the ID interval. -/
  idNeeded : Bool
  /-- cmdActive: true if a command line is being processed. -/
  cmdActive : Bool
  /-- nextCmdTimeout: millisecond deadline of the command timeout. -/
  nextCmdTimeout : Nat
  /-- Current ADC reading used by readVcc (external input, constant in
  this model). -/
  adc : Nat
  /-- Transcript of transmissions so far, oldest first. -/
  sent : List TxEvent

/-- Pointwise array update, modelling assignment to one array slot. -/
def updF {α : Type} (f : Fin numRelays → α) (r : Fin numRelays) (v : α) :
    Fin numRelays → α :=
  fun i => if i = r then v else f i

/-- Unsigned 32-bit subtraction a - b (two's-complement wraparound). -/
def wrapSub (a b : Nat) : Nat :=
  (a % ULONG_MOD + (ULONG_MOD - b % ULONG_MOD)) % ULONG_MOD

/-- Reinterpret an unsigned 32-bit value as a signed long. -/
def toLong (u : Nat) : Int :=
  if u < HALF_MOD then (u : Int) else (u : Int) - (ULONG_MOD : Int)

/-- The scheduler's due-ness test, (long)(deadline - now) < 0, as used
in loop for every deadline. -/
def isDue (deadline now : Nat) : Bool :=
  decide (toLong (wrapSub deadline now) < 0)

/-- checkDTMF, as a pure function of the raw decoder symbol for this
poll (0 = silence) and the current state.  Returns the value retVal and
the updated state. -/
def checkDTMF (raw : Nat) (s : Sys) : Bool × Sys :=
  if s.waitForSpace then
    if raw = 0 then
      (decide (s.dtmfKey ≠ 0), { s with waitForSpace := false })
    else
      (false, s)
  else
    if raw ≠ 0 then
      (false, { s with dtmfKey := raw, waitForSpace := true })
    else
      (false, s)

/-- pttDown: key the radio.  Besides asserting PTT it records that a
transmission happened and moves the next ID time out one period. -/
def pttDown (now : Nat) (s : Sys) : Sys :=
  { s with idNeeded := true, nextID := (now + ID_PERIOD) % ULONG_MOD }

/-- SendMorse at the system level: key the transmitter, then record the
whole transmission (prefix and message) as one transcript event.
pttUp has no effect on the modelled state. -/
def sendMorseS (now : Nat) (pfx : Nat) (msg : List Nat) (s : Sys) : Sys :=
  let s1 := pttDown now s
  { s1 with sent := s1.sent ++ [TxEvent.morse pfx msg] }

/-- relayOff(r): drive the relay pin to its off level, acknowledge with
offMsg prefixed by the relay number character, record the state. -/
def relayOff (now : Nat) (r : Fin numRelays) (s : Sys) : Sys :=
  let s1 := { s with pinLevel := updF s.pinLevel r (lnot (onState r)) }
  let s2 := sendMorseS now (r.val + 49) offMsg s1
  { s2 with relayState := updF s2.relayState r (lnot (onState r)) }

/-- relayOn(r, p): drive the relay pin to its on level, acknowledge with
perMsg (p true, held on) or onMsg (p false, timed on) prefixed by the
relay number character, record the state. -/
def relayOn (now : Nat) (r : Fin numRelays) (p : Bool) (s : Sys) : Sys :=
  let s1 := { s with pinLevel := updF s.pinLevel r (onState r) }
  let s2 :=
    if p then sendMorseS now (r.val + 49) perMsg s1
    else sendMorseS now (r.val + 49) onMsg s1
  { s2 with relayState := updF s2.relayState r (onState r) }

/-- readVcc: supply voltage in tenths of volts from the ADC reading. -/
def readVcc (s : Sys) : Nat := 11830 / s.adc

/-- sendVcc: report the supply voltage (message header via SendMorse,
then the two digits sent directly under manual PTT). -/
def sendVcc (now : Nat) (s : Sys) : Sys :=
  let vcc := readVcc s
  let s1 := sendMorseS now 0 vccMsg s
  let s2 := pttDown now s1
  { s2 with sent := s2.sent ++ [TxEvent.chr (vcc / 10 + 48), TxEvent.chr (vcc % 10 + 48)] }

/-- processKey: dispatch the latest accepted DTMF key.  Key codes:
49..54 are digits 1..6, 66 is B; any other nonzero key is echoed
followed by a question mark (code 63).  The 500 ms listening delay has
no state effect. -/
def processKey (now : Nat) (s : Sys) : Sys :=
  if s.dtmfKey ≠ 0 then
    let s' :=
      if s.dtmfKey = 49 then
        relayOff now 0 s
      else if s.dtmfKey = 50 then
        let s1 := relayOn now 0 false s
        { s1 with stayOn := updF s1.stayOn 0 false,
                  nextRelay := updF s1.nextRelay 0 ((now + RELAY_PERIOD) % ULONG_MOD) }
      else if s.dtmfKey = 51 then
        let s1 := relayOn now 0 true s
        { s1 with stayOn := updF s1.stayOn 0 true }
      else if s.dtmfKey = 52 then
        relayOff now 1 s
      else if s.dtmfKey = 53 then
        let s1 := relayOn now 1 false s
        { s1 with stayOn := updF s1.stayOn 1 false,
                  nextRelay := updF s1.nextRelay 1 ((now + RELAY_PERIOD) % ULONG_MOD) }
      else if s.dtmfKey = 54 then
        let s1 := relayOn now 1 true s
        { s1 with stayOn := updF s1.stayOn 1 true }
      else if s.dtmfKey = 66 then
        sendVcc now s
      else
        let s1 := pttDown now s
        { s1 with sent := s1.sent ++ [TxEvent.chr s.dtmfKey, TxEvent.chr 63] }
    { s' with dtmfKey := 0 }
  else
    { s with dtmfKey := 0 }

/-- Stage 1 of loop: if the DTMF poll deadline is due, sample the
decoder, process an accepted key, and rearm the poll deadline. -/
def dtmfStage (now raw : Nat) (s : Sys) : Sys :=
  if isDue s.nextDTMF now then
    let pr := checkDTMF raw s
    let s2 := if pr.1 then processKey now pr.2 else pr.2
    { s2 with nextDTMF := (now + DTMF_PERIOD) % ULONG_MOD }
  else s

/-- Stage 2 of loop: if a command is open and its timeout deadline is
due, announce the timeout and close the command. -/
def cmdStage (now : Nat) (s : Sys) : Sys :=
  if s.cmdActive then
    if isDue s.nextCmdTimeout now then
      let s1 := sendMorseS now 0 toMsg s
      { s1 with cmdActive := false }
    else s
  else s

/-- Stage 3 of loop: if the ID deadline is due, send the ID when a
transmission happened during the interval, and rearm unconditionally. -/
def idStage (now : Nat) (s : Sys) : Sys :=
  if isDue s.nextID now then
    let s1 :=
      if s.idNeeded then
        let s2 := sendMorseS now 0 idMsg s
        { s2 with idNeeded := false }
      else s
    { s1 with nextID := (now + ID_PERIOD) % ULONG_MOD }
  else s

/-- One iteration of the auto-off scan for relay r. -/
def relayStage1 (now : Nat) (r : Fin numRelays) (s : Sys) : Sys :=
  if s.relayState r = onState r ∧ s.stayOn r = false then
    if isDue (s.nextRelay r) now then relayOff now r s else s
  else s

/-- Stage 4 of loop: the auto-off scan over both relays, in index
order. -/
def relayStage (now : Nat) (s : Sys) : Sys :=
  relayStage1 now 1 (relayStage1 now 0 s)

/-- One full scheduler tick (one iteration of loop), given the tick's
millisecond time and the raw decoder symbol available at this tick. -/
def tick (now raw : Nat) (s : Sys) : Sys :=
  relayStage now (idStage now (cmdStage now (dtmfStage now raw s)))

/-- Whether this tick polls the decoder and accepts a key. -/
def tickAccepts (now raw : Nat) (s : Sys) : Bool :=
  isDue s.nextDTMF now && (checkDTMF raw s).1

/-- Run a sequence of scheduler ticks; each input is (now, raw). -/
def runTicks (s : Sys) : List (Nat × Nat) → Sys
  | [] => s
  | (now, raw) :: rest => runTicks (tick now raw s) rest

/-- The trace accepts no key at any of its ticks. -/
def NoAccept : Sys → List (Nat × Nat) → Prop
  | _, [] => True
  | s, (now, raw) :: rest =>
      tickAccepts now raw s = false ∧ NoAccept (tick now raw s) rest

/-- Run checkDTMF over a list of raw samples, collecting the returned
values in order together with the final state. -/
def runDTMF (s : Sys) : List Nat → List Bool × Sys
  | [] => ([], s)
  | k :: ks =>
    let pr := checkDTMF k s
    let rest := runDTMF pr.2 ks
    (pr.1 :: rest.1, rest.2)

/-- The state established by setup(): relays driven off, timers cleared,
DTMF idle, ID due immediately and needed.  The ADC reading is an
arbitrary concrete external input. -/
def sys0 : Sys where
  pinLevel := fun r => lnot (onState r)
  relayState := fun r => lnot (onState r)
  stayOn := fun _ => false
  nextRelay := fun _ => 0
  dtmfKey := 0
  waitForSpace := false
  nextDTMF := 0
  nextID := 0
  idNeeded := true
  cmdActive := false
  nextCmdTimeout := 0
  adc := 1183
  sent := []

/-! Component-level model of the CW transmitter (sendElements,
sendChar, SendMorse).  The character tables chtable[] and cwtable[]
live in the cwtable.h header, which is not among the provided sources,
so sendChar and SendMorse are parameterized by them: chtab is the
character list (the table's 0 sentinel corresponds to the end of the
list) and cwtab is the packed-element lookup.  Byte shifts are taken
modulo 256 (the index k is an unsigned char); tables are assumed
shorter than 128 entries, as any real character table is. -/

/-- One rendered output element: dit, dah, word break or character
break. -/
inductive Act where
  | dit | dah | wb | cb
deriving DecidableEq, Repr

/-- Modelled from the spec: the two-bit element codes DIT, DAH and WB
defined in the missing cwtable.h.  The spec says each element is 2 bits
drawn from dot, dash, word-gap and none/fill, and sendElements treats
all-zero remaining bits as end fill, so the three active codes are the
distinct nonzero two-bit values. -/
def DIT : Nat := 1

/-- Modelled from the spec: the dash element code (see DIT). -/
def DAH : Nat := 2

/-- Modelled from the spec: the word-break element code (see DIT). -/
def WB : Nat := 3

/-- The body of the sendElements loop: up to n remaining elements, over
the 8-bit accumulator bits.  Each step isolates the top two bits,
shifts, renders the element, and stops early once only end fill is
left. -/
def sendElemGo : Nat → Nat → List Act
  | 0, _ => []
  | Nat.succ n, bits =>
    let j := bits / 64
    let acts :=
      if j = DIT then [Act.dit]
      else if j = DAH then [Act.dah]
      else if j = WB then [Act.wb]
      else []
    let bits2 := (bits * 4) % 256
    if bits2 = 0 then acts else acts ++ sendElemGo n bits2

/-- sendElements: render one byte of up to 4 packed elements. -/
def sendElements (ele : Nat) : List Act := sendElemGo 4 (ele % 256)

/-- The search loop of sendChar: scan the character table from index k,
returning the final index and the matched table byte m (0 when the end
of the table was reached without a match). -/
def findChar (c : Nat) : Nat → List Nat → Nat × Nat
  | k, [] => (k, 0)
  | k, m :: rest => if c = m then (k, m) else findChar c (k + 1) rest

/-- sendChar: render one character.  A found dash is a bare character
break; any other found character renders its two element bytes; a
character that is neither space (32) nor dash (45) is followed by a
character break. -/
def sendChar (chtab : List Nat) (cwtab : Nat → Nat) (c : Nat) : List Act :=
  let km := findChar c 0 chtab
  let body :=
    if km.2 = 45 then [Act.cb]
    else if km.2 ≠ 0 then
      sendElements (cwtab ((2 * km.1) % 256)) ++
        sendElements (cwtab ((2 * km.1) % 256 + 1))
    else []
  body ++ (if c ≠ 32 ∧ c ≠ 45 then [Act.cb] else [])

/-- The fold applied by SendMorse to each message byte before lookup:
bytes above the code of Z (90) have 32 (the code of space) subtracted. -/
def foldUp (j : Nat) : Nat := if 90 < j then j - 32 else j

/-- The message loop of SendMorse: render each byte, folded, stopping
at the null terminator. -/
def morseChars (chtab : List Nat) (cwtab : Nat → Nat) : List Nat → List Act
  | [] => []
  | j :: rest =>
    if j = 0 then []
    else sendChar chtab cwtab (foldUp j) ++ morseChars chtab cwtab rest

/-- SendMorse at the component level: the nonzero prefix character and
a space are rendered unfolded, then the message bytes are rendered by
morseChars.  PTT keying has no element output. -/
def sendMorse (chtab : List Nat) (cwtab : Nat → Nat) (msg : List Nat)
    (pfx : Nat) : List Act :=
  (if pfx ≠ 0 then sendChar chtab cwtab pfx ++ sendChar chtab cwtab 32 else [])
    ++ morseChars chtab cwtab msg

/-! Basic facts about the due-ness test. -/

lemma wrapSub_lt (a b : Nat) : wrapSub a b < ULONG_MOD := by
  unfold wrapSub ULONG_MOD
  omega

lemma toLong_neg_iff (u : Nat) (hu : u < ULONG_MOD) :
    toLong u < 0 ↔ HALF_MOD ≤ u := by
  unfold ULONG_MOD at hu
  unfold toLong HALF_MOD ULONG_MOD
  split <;> omega

lemma isDue_iff (deadline now : Nat) :
    isDue deadline now = true ↔ HALF_MOD ≤ wrapSub deadline now := by
  rw [isDue, decide_eq_true_iff]
  exact toLong_neg_iff _ (wrapSub_lt _ _)

/-- C1: Every deadline in loop (DTMF poll, command timeout, station ID,
each relay auto-off) is tested with the signed wraparound difference
(long)(deadline - now) < 0, equivalently with the wraparound difference
reaching the sign bit; the test is not the direct unsigned comparison
of deadline against now, from which it differs at concrete inputs. -/
theorem loop_dueness (deadline now : Nat) :
    (isDue deadline now = true ↔ toLong (wrapSub deadline now) < 0) ∧
    (isDue deadline now = true ↔ HALF_MOD ≤ wrapSub deadline now) ∧
    (∀ s : Sys, ∀ raw, isDue s.nextDTMF now = false → dtmfStage now raw s = s) ∧
    (∀ s : Sys, isDue s.nextCmdTimeout now = false → cmdStage now s = s) ∧
    (∀ s : Sys, isDue s.nextID now = false → idStage now s = s) ∧
    (∀ s : Sys, (∀ r, isDue (s.nextRelay r) now = false) → relayStage now s = s) ∧
    ¬(∀ d n : Nat, isDue d n = decide (d < n)) := by
  refine ⟨by rw [isDue, decide_eq_true_iff], isDue_iff _ _, ?_, ?_, ?_, ?_, ?_⟩
  · intro s raw h
    simp [dtmfStage, h]
  · intro s h
    simp [cmdStage, h]
  · intro s h
    simp [idStage, h]
  · intro s h
    simp [relayStage, relayStage1, h 0, h 1]
  · intro h
    have h1 := h 4294967295 0
    rw [show isDue 4294967295 0 = true from by decide] at h1
    exact absurd h1 (by decide)

/-- Witness for loop_dueness: a wrapped pair where the signed test
fires although the unsigned comparison would not. -/
theorem loop_dueness_w : isDue 4294967295 0 = true :=
  ((loop_dueness 4294967295 0).2.1).mpr (by decide)

/-! The key edge detector. -/

/-- While a tone is held (waitForSpace set), every nonzero sample
leaves the state unchanged and reports nothing; the first zero sample
clears waitForSpace and reports the latched key. -/
lemma runDTMF_held (t : List Nat) (hnz : ∀ x ∈ t, x ≠ 0) (s : Sys)
    (hw : s.waitForSpace = true) :
    runDTMF s (t ++ [0]) =
      (List.replicate t.length false ++ [decide (s.dtmfKey ≠ 0)],
       { s with waitForSpace := false }) := by
  induction t with
  | nil =>
    simp [runDTMF, checkDTMF, hw]
  | cons x xs ih =>
    have hx : x ≠ 0 := hnz x (by simp)
    have hrest : ∀ y ∈ xs, y ≠ 0 := fun y hy => hnz y (by simp [hy])
    simp [runDTMF, checkDTMF, hw, hx, ih hrest, List.replicate_succ]

/-- C2: One press-then-release cycle (one or more nonzero samples, then
a zero sample) starting outside a tone makes checkDTMF report true
exactly once, at the zero sample, however long the tone was sustained;
the latched key is the symbol of the first nonzero sample, and the
detector ends ready for the next cycle. -/
theorem checkDTMF_cycle (l : List Nat) (s : Sys)
    (hw : s.waitForSpace = false) (hne : l ≠ [])
    (hnz : ∀ x ∈ l, x ≠ 0) :
    (runDTMF s (l ++ [0])).1 = List.replicate l.length false ++ [true] ∧
    (runDTMF s (l ++ [0])).2.dtmfKey = l.headI ∧
    (runDTMF s (l ++ [0])).2.waitForSpace = false := by
  cases l with
  | nil => exact absurd rfl hne
  | cons a t =>
    have ha : a ≠ 0 := hnz a (by simp)
    have ht : ∀ y ∈ t, y ≠ 0 := fun y hy => hnz y (by simp [hy])
    have hc : checkDTMF a s = (false, { s with dtmfKey := a, waitForSpace := true }) := by
      simp [checkDTMF, hw, ha]
    have h1 := runDTMF_held t ht { s with dtmfKey := a, waitForSpace := true } rfl
    simp [runDTMF, hc, h1, ha, List.replicate_succ]

/-- Witness for checkDTMF_cycle: a tone held for two polls then
released is accepted once, at the release. -/
theorem checkDTMF_cycle_w :
    (runDTMF sys0 ([7, 7] ++ [0])).1 = List.replicate 2 false ++ [true] ∧
    (runDTMF sys0 ([7, 7] ++ [0])).2.dtmfKey = ([7, 7] : List Nat).headI ∧
    (runDTMF sys0 ([7, 7] ++ [0])).2.waitForSpace = false :=
  checkDTMF_cycle [7, 7] sys0 rfl (by decide) (by decide)

/-! Frame conditions of the relay operations and the ID stage. -/

/-- C9: relayOff r changes only relay r's pin level and recorded state
(both to the off level); every field of every other relay, and relay
r's own stayOn flag and auto-off deadline, are untouched, so turning
off a manually held relay does not clear its hold flag. -/
theorem relayOff_frame (s : Sys) (now : Nat) (r i : Fin numRelays)
    (hir : i ≠ r) :
    ((relayOff now r s).relayState i = s.relayState i ∧
     (relayOff now r s).stayOn i = s.stayOn i ∧
     (relayOff now r s).nextRelay i = s.nextRelay i ∧
     (relayOff now r s).pinLevel i = s.pinLevel i) ∧
    ((relayOff now r s).stayOn r = s.stayOn r ∧
     (relayOff now r s).nextRelay r = s.nextRelay r) ∧
    (relayOff now r s).relayState r = lnot (onState r) ∧
    (relayOff now r s).pinLevel r = lnot (onState r) := by
  simp [relayOff, sendMorseS, pttDown, updF, hir]

/-- Witness for relayOff_frame: turning off relay 0 in the startup
state leaves relay 1 and the bookkeeping of relay 0 unchanged. -/
theorem relayOff_frame_w :
    ((relayOff 0 0 sys0).relayState 1 = sys0.relayState 1 ∧
     (relayOff 0 0 sys0).stayOn 1 = sys0.stayOn 1 ∧
     (relayOff 0 0 sys0).nextRelay 1 = sys0.nextRelay 1 ∧
     (relayOff 0 0 sys0).pinLevel 1 = sys0.pinLevel 1) ∧
    ((relayOff 0 0 sys0).stayOn 0 = sys0.stayOn 0 ∧
     (relayOff 0 0 sys0).nextRelay 0 = sys0.nextRelay 0) ∧
    (relayOff 0 0 sys0).relayState 0 = lnot (onState 0) ∧
    (relayOff 0 0 sys0).pinLevel 0 = lnot (onState 0) :=
  relayOff_frame sys0 0 0 1 (by decide)

/-- C7: at a tick whose ID deadline is due, the ID message goes out
exactly when idNeeded is set, idNeeded is clear afterwards, and the
deadline is rearmed to now + ID_PERIOD unconditionally; in particular
with no PTT activity during the interval nothing is transmitted and the
next boundary is exactly one period after this tick's now. -/
theorem id_check (s : Sys) (now : Nat) (hdue : isDue s.nextID now = true) :
    (idStage now s).nextID = (now + ID_PERIOD) % ULONG_MOD ∧
    (s.idNeeded = true →
      (idStage now s).sent = s.sent ++ [TxEvent.morse 0 idMsg] ∧
      (idStage now s).idNeeded = false) ∧
    (s.idNeeded = false →
      (idStage now s).sent = s.sent ∧ (idStage now s).idNeeded = false) := by
  by_cases hn : s.idNeeded <;>
    simp [idStage, hdue, hn, sendMorseS, pttDown]

/-- Witness for id_check: a due ID deadline with no PTT activity sends
nothing and rearms one period out. -/
theorem id_check_w :
    (idStage 5 { sys0 with idNeeded := false }).nextID =
      (5 + ID_PERIOD) % ULONG_MOD ∧
    (Sys.idNeeded { sys0 with idNeeded := false } = true →
      (idStage 5 { sys0 with idNeeded := false }).sent =
        Sys.sent { sys0 with idNeeded := false } ++ [TxEvent.morse 0 idMsg] ∧
      (idStage 5 { sys0 with idNeeded := false }).idNeeded = false) ∧
    (Sys.idNeeded { sys0 with idNeeded := false } = false →
      (idStage 5 { sys0 with idNeeded := false }).sent =
        Sys.sent { sys0 with idNeeded := false } ∧
      (idStage 5 { sys0 with idNeeded := false }).idNeeded = false) :=
  id_check { sys0 with idNeeded := false } 5 (by decide)

/-- C6: an accepted key outside the static mapping (keys 1..6 and B) is
echoed followed by a question mark, and no relay field changes. -/
theorem unmapped_key (s : Sys) (now k : Nat)
    (hk : s.dtmfKey = k) (h0 : k ≠ 0)
    (hm : k ∉ ([49, 50, 51, 52, 53, 54, 66] : List Nat)) :
    (processKey now s).sent = s.sent ++ [TxEvent.chr k, TxEvent.chr 63] ∧
    ∀ i, (processKey now s).relayState i = s.relayState i ∧
      (processKey now s).stayOn i = s.stayOn i ∧
      (processKey now s).nextRelay i = s.nextRelay i := by
  simp only [List.mem_cons, List.not_mem_nil, or_false] at hm
  push_neg at hm
  obtain ⟨h49, h50, h51, h52, h53, h54, h66⟩ := hm
  simp [processKey, hk, h0, h49, h50, h51, h52, h53, h54, h66, pttDown]

/-- Witness for unmapped_key: key C (code 67) is echoed with a query
and leaves all relays alone. -/
theorem unmapped_key_w :
    (processKey 0 { sys0 with dtmfKey := 67 }).sent =
      Sys.sent { sys0 with dtmfKey := 67 } ++ [TxEvent.chr 67, TxEvent.chr 63] ∧
    ∀ i, (processKey 0 { sys0 with dtmfKey := 67 }).relayState i =
        Sys.relayState { sys0 with dtmfKey := 67 } i ∧
      (processKey 0 { sys0 with dtmfKey := 67 }).stayOn i =
        Sys.stayOn { sys0 with dtmfKey := 67 } i ∧
      (processKey 0 { sys0 with dtmfKey := 67 }).nextRelay i =
        Sys.nextRelay { sys0 with dtmfKey := 67 } i :=
  unmapped_key { sys0 with dtmfKey := 67 } 0 67 rfl (by decide) (by decide)

/-! The character-table search of sendChar. -/

lemma findChar_not_mem (c : Nat) (tbl : List Nat) (hc : c ∉ tbl) :
    ∀ k, (findChar c k tbl).2 = 0 := by
  induction tbl with
  | nil => intro k; rfl
  | cons m rest ih =>
    intro k
    have hcm : c ≠ m := fun h => hc (h ▸ List.mem_cons_self m rest)
    rw [findChar, if_neg hcm]
    exact ih (fun h => hc (List.mem_cons_of_mem _ h)) _

lemma findChar_mem (c : Nat) (tbl : List Nat) (hc : c ∈ tbl) :
    ∀ k, (findChar c k tbl).2 = c := by
  induction tbl with
  | nil => exact absurd hc (List.not_mem_nil c)
  | cons m rest ih =>
    intro k
    by_cases hcm : c = m
    · rw [findChar, if_pos hcm]
      exact hcm.symm
    · rw [findChar, if_neg hcm]
      exact ih ((List.mem_cons.mp hc).resolve_left hcm) _

/-- C8: sendChar on a character absent from the table emits no tone
elements but still the inter-character gap, except that an absent
space emits nothing; the reserved dash marker (present in the table)
emits exactly one character break and nothing else; and any character
other than space and dash ends with a trailing character break. -/
theorem sendChar_gaps (chtab : List Nat) (cwtab : Nat → Nat) (c : Nat)
    (hd : (45 : Nat) ∈ chtab) :
    (c ∉ chtab → c ≠ 32 → c ≠ 45 → sendChar chtab cwtab c = [Act.cb]) ∧
    ((32 : Nat) ∉ chtab → sendChar chtab cwtab 32 = []) ∧
    sendChar chtab cwtab 45 = [Act.cb] ∧
    (c ≠ 32 → c ≠ 45 → ∃ el, sendChar chtab cwtab c = el ++ [Act.cb]) := by
  refine ⟨?_, ?_, ?_, ?_⟩
  · intro hnc h32 h45
    have hm := findChar_not_mem c chtab hnc 0
    simp [sendChar, hm, h32, h45]
  · intro hns
    have hm := findChar_not_mem 32 chtab hns 0
    simp [sendChar, hm]
  · have hm := findChar_mem 45 chtab hd 0
    simp [sendChar, hm]
  · intro h32 h45
    refine ⟨if (findChar c 0 chtab).2 = 45 then [Act.cb]
      else if (findChar c 0 chtab).2 ≠ 0 then
        sendElements (cwtab ((2 * (findChar c 0 chtab).1) % 256)) ++
          sendElements (cwtab ((2 * (findChar c 0 chtab).1) % 256 + 1))
      else [], ?_⟩
    simp [sendChar, h32, h45]

/-- Witness for sendChar_gaps: a question mark absent from a table
holding only dash and A yields just the inter-character gap. -/
theorem sendChar_gaps_w :
    sendChar [45, 65] (fun _ => 0) 63 = [Act.cb] :=
  (sendChar_gaps [45, 65] (fun _ => 0) 63 (by decide)).1 (by decide)
    (by decide) (by decide)

/-- C10: SendMorse folds each message byte above the code of Z by
subtracting the code of space before the table lookup and keeps bytes
at or below Z unmodified, so a lowercase letter renders exactly as its
uppercase equivalent. -/
theorem sendMorse_fold (chtab : List Nat) (cwtab : Nat → Nat) (c : Nat) :
    (97 ≤ c → c ≤ 122 →
      sendMorse chtab cwtab [c] 0 = sendMorse chtab cwtab [c - 32] 0 ∧
      foldUp c = c - 32) ∧
    (c ≤ 90 → foldUp c = c) ∧
    (90 < c → foldUp c = c - 32) ∧
    (c ≠ 0 → sendMorse chtab cwtab [c] 0 = sendChar chtab cwtab (foldUp c)) := by
  refine ⟨?_, ?_, ?_, ?_⟩
  · intro h1 h2
    have hc0 : c ≠ 0 := by omega
    have hc32 : c - 32 ≠ 0 := by omega
    have f1 : foldUp c = c - 32 := by
      unfold foldUp
      rw [if_pos (by omega)]
    have f2 : foldUp (c - 32) = c - 32 := by
      unfold foldUp
      rw [if_neg (by omega)]
    exact ⟨by simp [sendMorse, morseChars, hc0, hc32, f1, f2], f1⟩
  · intro h
    unfold foldUp
    rw [if_neg (by omega)]
  · intro h
    unfold foldUp
    rw [if_pos h]
  · intro h
    simp [sendMorse, morseChars, h]

/-- Witness for sendMorse_fold: lowercase a renders as uppercase A. -/
theorem sendMorse_fold_w :
    sendMorse [65] (fun _ => 0) [97] 0 = sendMorse [65] (fun _ => 0) [65] 0 :=
  ((sendMorse_fold [65] (fun _ => 0) 97).1 (by decide) (by decide)).1

/-! Frame lemmas for the scheduler stages, used to track a relay's
fields across ticks. -/

lemma checkDTMF_zero_idle (s : Sys) (hw : s.waitForSpace = false) :
    checkDTMF 0 s = (false, s) := by
  simp [checkDTMF, hw]

lemma checkDTMF_frame (raw : Nat) (s : Sys) :
    (checkDTMF raw s).2.relayState = s.relayState ∧
    (checkDTMF raw s).2.stayOn = s.stayOn ∧
    (checkDTMF raw s).2.nextRelay = s.nextRelay := by
  unfold checkDTMF
  split <;> split <;> simp

lemma dtmfStage_zero_frame (now : Nat) (s : Sys) (hw : s.waitForSpace = false) :
    (dtmfStage now 0 s).relayState = s.relayState ∧
    (dtmfStage now 0 s).stayOn = s.stayOn ∧
    (dtmfStage now 0 s).nextRelay = s.nextRelay ∧
    (dtmfStage now 0 s).waitForSpace = false ∧
    (dtmfStage now 0 s).dtmfKey = s.dtmfKey := by
  by_cases hd : isDue s.nextDTMF now <;>
    simp [dtmfStage, hd, checkDTMF_zero_idle s hw, hw]

lemma dtmfStage_noaccept_frame (now raw : Nat) (s : Sys)
    (hacc : tickAccepts now raw s = false) :
    (dtmfStage now raw s).relayState = s.relayState ∧
    (dtmfStage now raw s).stayOn = s.stayOn ∧
    (dtmfStage now raw s).nextRelay = s.nextRelay := by
  by_cases hd : isDue s.nextDTMF now
  · have hch : (checkDTMF raw s).1 = false := by
      rw [tickAccepts, hd] at hacc
      simpa using hacc
    have hfr := checkDTMF_frame raw s
    simp [dtmfStage, hd, hch, hfr.1, hfr.2.1, hfr.2.2]
  · simp [dtmfStage, hd]

lemma cmdStage_frame (now : Nat) (s : Sys) :
    (cmdStage now s).relayState = s.relayState ∧
    (cmdStage now s).stayOn = s.stayOn ∧
    (cmdStage now s).nextRelay = s.nextRelay ∧
    (cmdStage now s).waitForSpace = s.waitForSpace ∧
    (cmdStage now s).dtmfKey = s.dtmfKey := by
  by_cases hc : s.cmdActive <;>
    by_cases hd : isDue s.nextCmdTimeout now <;>
      simp [cmdStage, hc, hd, sendMorseS, pttDown]

lemma idStage_frame (now : Nat) (s : Sys) :
    (idStage now s).relayState = s.relayState ∧
    (idStage now s).stayOn = s.stayOn ∧
    (idStage now s).nextRelay = s.nextRelay ∧
    (idStage now s).waitForSpace = s.waitForSpace ∧
    (idStage now s).dtmfKey = s.dtmfKey := by
  by_cases hd : isDue s.nextID now <;>
    by_cases hn : s.idNeeded <;>
      simp [idStage, hd, hn, sendMorseS, pttDown]

lemma relayStage1_frame (now : Nat) (i : Fin numRelays) (s : Sys) :
    (relayStage1 now i s).stayOn = s.stayOn ∧
    (relayStage1 now i s).nextRelay = s.nextRelay ∧
    (relayStage1 now i s).waitForSpace = s.waitForSpace ∧
    (relayStage1 now i s).dtmfKey = s.dtmfKey ∧
    ∀ j, j ≠ i → (relayStage1 now i s).relayState j = s.relayState j := by
  unfold relayStage1 relayOff sendMorseS pttDown
  split
  · split
    · refine ⟨rfl, rfl, rfl, rfl, fun j hj => ?_⟩
      simp [updF, hj]
    · simp
  · simp

lemma relayStage1_notdue (now : Nat) (i : Fin numRelays) (s : Sys)
    (h : isDue (s.nextRelay i) now = false) :
    relayStage1 now i s = s := by
  unfold relayStage1
  split
  · rw [h]
    simp
  · rfl

lemma relayStage1_hold (now : Nat) (i : Fin numRelays) (s : Sys)
    (h : s.stayOn i = true) :
    relayStage1 now i s = s := by
  unfold relayStage1
  rw [if_neg]
  simp [h]

lemma relayStage1_fire (now : Nat) (i : Fin numRelays) (s : Sys)
    (hon : s.relayState i = onState i) (hstay : s.stayOn i = false)
    (hdue : isDue (s.nextRelay i) now = true) :
    (relayStage1 now i s).relayState i = lnot (onState i) := by
  unfold relayStage1
  rw [if_pos ⟨hon, hstay⟩, hdue]
  simp [relayOff, sendMorseS, pttDown, updF]

lemma relayStage_frame (now : Nat) (s : Sys) (r : Fin numRelays)
    (hnd : isDue (s.nextRelay r) now = false) :
    (relayStage now s).relayState r = s.relayState r ∧
    (relayStage now s).stayOn = s.stayOn ∧
    (relayStage now s).nextRelay = s.nextRelay ∧
    (relayStage now s).waitForSpace = s.waitForSpace ∧
    (relayStage now s).dtmfKey = s.dtmfKey := by
  have h0 := relayStage1_frame now 0 s
  have h1 := relayStage1_frame now 1 (relayStage1 now 0 s)
  unfold relayStage
  refine ⟨?_, h1.1.trans h0.1, h1.2.1.trans h0.2.1,
    h1.2.2.1.trans h0.2.2.1, h1.2.2.2.1.trans h0.2.2.2.1⟩
  fin_cases r
  · show (relayStage1 now 1 (relayStage1 now 0 s)).relayState 0 = s.relayState 0
    rw [relayStage1_notdue now 0 s hnd]
    exact (relayStage1_frame now 1 s).2.2.2.2 0 (by decide)
  · show (relayStage1 now 1 (relayStage1 now 0 s)).relayState 1 = s.relayState 1
    have ht : isDue ((relayStage1 now 0 s).nextRelay 1) now = false := by
      rw [h0.2.1]
      exact hnd
    rw [relayStage1_notdue now 1 _ ht]
    exact h0.2.2.2.2 1 (by decide)

lemma relayStage_fires (now : Nat) (s : Sys) (r : Fin numRelays)
    (hon : s.relayState r = onState r) (hstay : s.stayOn r = false)
    (hdue : isDue (s.nextRelay r) now = true) :
    (relayStage now s).relayState r = lnot (onState r) := by
  have h0 := relayStage1_frame now 0 s
  unfold relayStage
  fin_cases r
  · show (relayStage1 now 1 (relayStage1 now 0 s)).relayState 0 = lnot (onState 0)
    have hf : (relayStage1 now 0 s).relayState 0 = lnot (onState 0) :=
      relayStage1_fire now 0 s hon hstay hdue
    exact ((relayStage1_frame now 1 (relayStage1 now 0 s)).2.2.2.2 0
      (by decide)).trans hf
  · show (relayStage1 now 1 (relayStage1 now 0 s)).relayState 1 = lnot (onState 1)
    have e1 : (relayStage1 now 0 s).relayState 1 = onState 1 := by
      rw [h0.2.2.2.2 1 (by decide)]
      exact hon
    have e2 : (relayStage1 now 0 s).stayOn 1 = false := by
      rw [h0.1]
      exact hstay
    have e3 : isDue ((relayStage1 now 0 s).nextRelay 1) now = true := by
      rw [h0.2.1]
      exact hdue
    exact relayStage1_fire now 1 _ e1 e2 e3

lemma relayStage_hold (now : Nat) (s : Sys) (r : Fin numRelays)
    (hstay : s.stayOn r = true) :
    (relayStage now s).stayOn r = true ∧
    (relayStage now s).relayState r = s.relayState r := by
  have h0 := relayStage1_frame now 0 s
  unfold relayStage
  fin_cases r
  · show (relayStage1 now 1 (relayStage1 now 0 s)).stayOn 0 = true ∧
      (relayStage1 now 1 (relayStage1 now 0 s)).relayState 0 = s.relayState 0
    rw [relayStage1_hold now 0 s hstay]
    have h1 := relayStage1_frame now 1 s
    exact ⟨h1.1.symm ▸ hstay, h1.2.2.2.2 0 (by decide)⟩
  · show (relayStage1 now 1 (relayStage1 now 0 s)).stayOn 1 = true ∧
      (relayStage1 now 1 (relayStage1 now 0 s)).relayState 1 = s.relayState 1
    have e2 : (relayStage1 now 0 s).stayOn 1 = true := by
      rw [h0.1]
      exact hstay
    rw [relayStage1_hold now 1 _ e2]
    exact ⟨e2, h0.2.2.2.2 1 (by decide)⟩

/-! Wraparound arithmetic facts about deadlines one period out. -/

lemma isDue_elapsed (a dd : Nat) (h1 : 0 < dd) (h2 : dd ≤ HALF_MOD) :
    isDue (a % ULONG_MOD) (a + dd) = true := by
  rw [isDue_iff]
  unfold wrapSub HALF_MOD ULONG_MOD at *
  omega

lemma notDue_within (a b : Nat) (h1 : b ≤ a) (h2 : a - b < HALF_MOD) :
    isDue (a % ULONG_MOD) b = false := by
  cases h : isDue (a % ULONG_MOD) b
  · rfl
  · exfalso
    have := (isDue_iff _ _).mp h
    unfold wrapSub HALF_MOD ULONG_MOD at *
    omega

/-! Whole-tick lemmas. -/

lemma tick_keep_armed (now : Nat) (s : Sys) (r : Fin numRelays)
    (hw : s.waitForSpace = false)
    (hnd : isDue (s.nextRelay r) now = false) :
    (tick now 0 s).waitForSpace = false ∧
    (tick now 0 s).relayState r = s.relayState r ∧
    (tick now 0 s).stayOn r = s.stayOn r ∧
    (tick now 0 s).nextRelay r = s.nextRelay r := by
  obtain ⟨d1, d2, d3, d4, _⟩ := dtmfStage_zero_frame now s hw
  set s1 := dtmfStage now 0 s with hs1
  obtain ⟨c1, c2, c3, c4, _⟩ := cmdStage_frame now s1
  set s2 := cmdStage now s1 with hs2
  obtain ⟨i1, i2, i3, i4, _⟩ := idStage_frame now s2
  set s3 := idStage now s2 with hs3
  have hnd3 : isDue (s3.nextRelay r) now = false := by
    rw [i3, c3, d3]
    exact hnd
  obtain ⟨r1, r2, r3, r4, _⟩ := relayStage_frame now s3 r hnd3
  unfold tick
  refine ⟨?_, ?_, ?_, ?_⟩
  · rw [← hs1, ← hs2, ← hs3, r4, i4, c4, d4]
  · rw [← hs1, ← hs2, ← hs3, r1, i1, c1, d1]
  · rw [← hs1, ← hs2, ← hs3, r2, i2, c2, d2]
  · rw [← hs1, ← hs2, ← hs3, r3, i3, c3, d3]

lemma tick_fires (now : Nat) (s : Sys) (r : Fin numRelays)
    (hw : s.waitForSpace = false)
    (hon : s.relayState r = onState r) (hstay : s.stayOn r = false)
    (hdue : isDue (s.nextRelay r) now = true) :
    (tick now 0 s).relayState r = lnot (onState r) := by
  obtain ⟨d1, d2, d3, d4, _⟩ := dtmfStage_zero_frame now s hw
  set s1 := dtmfStage now 0 s with hs1
  obtain ⟨c1, c2, c3, c4, _⟩ := cmdStage_frame now s1
  set s2 := cmdStage now s1 with hs2
  obtain ⟨i1, i2, i3, i4, _⟩ := idStage_frame now s2
  set s3 := idStage now s2 with hs3
  have e1 : s3.relayState r = onState r := by
    rw [i1, c1, d1]
    exact hon
  have e2 : s3.stayOn r = false := by
    rw [i2, c2, d2]
    exact hstay
  have e3 : isDue (s3.nextRelay r) now = true := by
    rw [i3, c3, d3]
    exact hdue
  unfold tick
  rw [← hs1, ← hs2, ← hs3]
  exact relayStage_fires now s3 r e1 e2 e3

lemma tick_hold (now raw : Nat) (s : Sys) (r : Fin numRelays)
    (hacc : tickAccepts now raw s = false)
    (hstay : s.stayOn r = true) (hon : s.relayState r = onState r) :
    (tick now raw s).stayOn r = true ∧
    (tick now raw s).relayState r = onState r := by
  obtain ⟨d1, d2, d3⟩ := dtmfStage_noaccept_frame now raw s hacc
  set s1 := dtmfStage now raw s with hs1
  obtain ⟨c1, c2, c3, c4, _⟩ := cmdStage_frame now s1
  set s2 := cmdStage now s1 with hs2
  obtain ⟨i1, i2, i3, i4, _⟩ := idStage_frame now s2
  set s3 := idStage now s2 with hs3
  have e1 : s3.stayOn r = true := by
    rw [i2, c2, d2]
    exact hstay
  have e2 : s3.relayState r = onState r := by
    rw [i1, c1, d1]
    exact hon
  obtain ⟨o1, o2⟩ := relayStage_hold now s3 r e1
  unfold tick
  rw [← hs1, ← hs2, ← hs3]
  exact ⟨o1, o2.trans e2⟩

lemma runTicks_append (s : Sys) (l1 l2 : List (Nat × Nat)) :
    runTicks s (l1 ++ l2) = runTicks (runTicks s l1) l2 := by
  induction l1 generalizing s with
  | nil => rfl
  | cons p rest ih =>
    obtain ⟨now, raw⟩ := p
    simp only [List.cons_append, runTicks]
    exact ih (tick now raw s)

/-- Over any run of ticks with silent decoder input whose times never
make the armed deadline due, a timed-on relay keeps all its fields. -/
lemma run_keep_armed (ts : List Nat) (s : Sys) (r : Fin numRelays) (d : Nat)
    (hw : s.waitForSpace = false)
    (hon : s.relayState r = onState r) (hstay : s.stayOn r = false)
    (harm : s.nextRelay r = d)
    (hts : ∀ t ∈ ts, isDue d t = false) :
    (runTicks s (ts.map fun t => (t, 0))).waitForSpace = false ∧
    (runTicks s (ts.map fun t => (t, 0))).relayState r = onState r ∧
    (runTicks s (ts.map fun t => (t, 0))).stayOn r = false ∧
    (runTicks s (ts.map fun t => (t, 0))).nextRelay r = d := by
  induction ts generalizing s with
  | nil => exact ⟨hw, hon, hstay, harm⟩
  | cons t rest ih =>
    have hnd : isDue (s.nextRelay r) t = false := by
      rw [harm]
      exact hts t (by simp)
    obtain ⟨k1, k2, k3, k4⟩ := tick_keep_armed t s r hw hnd
    simp only [List.map_cons, runTicks]
    exact ih (tick t 0 s) k1 (k2.trans hon) (k3.trans hstay) (k4.trans harm)
      (fun x hx => hts x (by simp [hx]))

/-- Core of the auto-off scenario: a relay armed for t0 + RELAY_PERIOD,
left alone through silent in-period ticks, is off after the first tick
more than the period past t0 (within the signed comparison window). -/
lemma autoOff_core (s : Sys) (r : Fin numRelays) (t0 e : Nat) (es : List Nat)
    (hw : s.waitForSpace = false)
    (hon : s.relayState r = onState r) (hstay : s.stayOn r = false)
    (harm : s.nextRelay r = (t0 + RELAY_PERIOD) % ULONG_MOD)
    (hes : ∀ x ∈ es, x ≤ RELAY_PERIOD)
    (he1 : RELAY_PERIOD < e) (he2 : e ≤ RELAY_PERIOD + HALF_MOD) :
    (runTicks s (es.map (fun x => (t0 + x, 0)) ++ [(t0 + e, 0)])).relayState r =
      lnot (onState r) := by
  have hmm2 : es.map (fun x => (t0 + x, 0)) =
      (es.map fun x => t0 + x).map (fun t => ((t : Nat), (0 : Nat))) := by
    simp [List.map_map, Function.comp]
  rw [hmm2, runTicks_append]
  have hts : ∀ t ∈ es.map (fun x => t0 + x),
      isDue ((t0 + RELAY_PERIOD) % ULONG_MOD) t = false := by
    intro t ht
    obtain ⟨x, hx, rfl⟩ := List.mem_map.mp ht
    have hxP : x ≤ RELAY_PERIOD := hes x hx
    refine notDue_within (t0 + RELAY_PERIOD) (t0 + x) (by omega) ?_
    have : RELAY_PERIOD < HALF_MOD := by decide
    omega
  obtain ⟨w1, w2, w3, w4⟩ :=
    run_keep_armed (es.map fun x => t0 + x) s r ((t0 + RELAY_PERIOD) % ULONG_MOD)
      hw hon hstay harm hts
  simp only [runTicks]
  refine tick_fires (t0 + e) _ r w1 w2 w3 ?_
  rw [w4]
  have he : t0 + RELAY_PERIOD + (e - RELAY_PERIOD) = t0 + e := by omega
  have := isDue_elapsed (t0 + RELAY_PERIOD) (e - RELAY_PERIOD) (by omega)
    (by omega)
  rwa [he] at this

/-- C4: a relay r switched on in timed mode (on, not held, deadline
armed at t0 + RELAY_PERIOD), given only silent in-period ticks and then
a tick past the period, is turned off by the auto-off scan: its state
reads the off level. -/
theorem relay_autoOff (s : Sys) (r : Fin numRelays) (t0 e : Nat)
    (es : List Nat)
    (hw : s.waitForSpace = false)
    (hon : s.relayState r = onState r) (hstay : s.stayOn r = false)
    (harm : s.nextRelay r = (t0 + RELAY_PERIOD) % ULONG_MOD)
    (hes : ∀ x ∈ es, x ≤ RELAY_PERIOD)
    (he1 : RELAY_PERIOD < e) (he2 : e ≤ RELAY_PERIOD + HALF_MOD) :
    (runTicks s (es.map (fun x => (t0 + x, 0)) ++ [(t0 + e, 0)])).relayState r =
      lnot (onState r) :=
  autoOff_core s r t0 e es hw hon hstay harm hes he1 he2

/-- A state with relay 0 on in timed mode, deadline armed at
0 + RELAY_PERIOD. -/
def sysArmed : Sys :=
  { sys0 with
    relayState := updF sys0.relayState 0 (onState 0),
    nextRelay := updF sys0.nextRelay 0 ((0 + RELAY_PERIOD) % ULONG_MOD) }

/-- Witness for relay_autoOff: the armed relay is off at the first
tick past the period. -/
theorem relay_autoOff_w :
    (runTicks sysArmed (([] : List Nat).map (fun x => (0 + x, 0)) ++
      [(0 + 300001, 0)])).relayState 0 = lnot (onState 0) :=
  relay_autoOff sysArmed 0 0 300001 [] rfl (by decide) rfl (by decide)
    (by simp) (by decide) (by decide)

/-- The run part of the held-relay property. -/
lemma held_run (tr : List (Nat × Nat)) (s : Sys) (r : Fin numRelays)
    (hstay : s.stayOn r = true) (hon : s.relayState r = onState r)
    (hna : NoAccept s tr) :
    (runTicks s tr).stayOn r = true ∧
    (runTicks s tr).relayState r = onState r := by
  induction tr generalizing s with
  | nil => exact ⟨hstay, hon⟩
  | cons p rest ih =>
    obtain ⟨now, raw⟩ := p
    obtain ⟨hacc, hna'⟩ := hna
    obtain ⟨t1, t2⟩ := tick_hold now raw s r hacc hstay hon
    simp only [runTicks]
    exact ih (tick now raw s) t1 t2 hna'

/-- C5: a relay switched on in held mode stays on through any number
of ticks that accept no key, however much time passes; indeed the
auto-off scan is the identity on any state whose relay has the hold
flag set. -/
theorem held_stays_on (s : Sys) (r : Fin numRelays) (tr : List (Nat × Nat))
    (hstay : s.stayOn r = true) (hon : s.relayState r = onState r)
    (hna : NoAccept s tr) :
    (runTicks s tr).stayOn r = true ∧
    (runTicks s tr).relayState r = onState r ∧
    ∀ (now2 : Nat) (s2 : Sys), s2.stayOn r = true →
      relayStage1 now2 r s2 = s2 := by
  obtain ⟨h1, h2⟩ := held_run tr s r hstay hon hna
  exact ⟨h1, h2, fun now2 s2 h => relayStage1_hold now2 r s2 h⟩

/-- A state with relay 0 on in held mode. -/
def sysHeld : Sys :=
  { sys0 with
    stayOn := updF sys0.stayOn 0 true,
    relayState := updF sys0.relayState 0 (onState 0) }

/-- Witness for held_stays_on: the held relay survives a tick far in
the future. -/
theorem held_stays_on_w :
    (runTicks sysHeld [(1000000000, 0)]).stayOn 0 = true ∧
    (runTicks sysHeld [(1000000000, 0)]).relayState 0 = onState 0 ∧
    ∀ (now2 : Nat) (s2 : Sys), s2.stayOn 0 = true →
      relayStage1 now2 0 s2 = s2 :=
  held_stays_on sysHeld 0 [(1000000000, 0)] (by decide) (by decide)
    ⟨by decide, trivial⟩

/-- C3: accepting digit 2 (code 50) while relay 0 is off turns relay 0
on unheld, transmits the on acknowledgment prefixed by the character 1
(code 49), arms the auto-off deadline at now + RELAY_PERIOD, and with
only silent input afterwards the scheduler turns relay 0 back off once
the period has elapsed. -/
theorem key2_scenario (s : Sys) (now : Nat)
    (hk : s.dtmfKey = 50) (hw : s.waitForSpace = false)
    (_hoff : s.relayState 0 = lnot (onState 0)) :
    (processKey now s).relayState 0 = onState 0 ∧
    (processKey now s).stayOn 0 = false ∧
    (processKey now s).sent = s.sent ++ [TxEvent.morse 49 onMsg] ∧
    (processKey now s).nextRelay 0 = (now + RELAY_PERIOD) % ULONG_MOD ∧
    ∀ (es : List Nat) (e : Nat), (∀ x ∈ es, x ≤ RELAY_PERIOD) →
      RELAY_PERIOD < e → e ≤ RELAY_PERIOD + HALF_MOD →
      (runTicks (processKey now s)
        (es.map (fun x => (now + x, 0)) ++ [(now + e, 0)])).relayState 0 =
        lnot (onState 0) := by
  have heq : processKey now s = { s with
      pinLevel := updF s.pinLevel 0 (onState 0),
      relayState := updF s.relayState 0 (onState 0),
      stayOn := updF s.stayOn 0 false,
      nextRelay := updF s.nextRelay 0 ((now + RELAY_PERIOD) % ULONG_MOD),
      idNeeded := true,
      nextID := (now + ID_PERIOD) % ULONG_MOD,
      sent := s.sent ++ [TxEvent.morse 49 onMsg],
      dtmfKey := 0 } := by
    simp [processKey, hk, relayOn, sendMorseS, pttDown]
  refine ⟨?_, ?_, ?_, ?_, ?_⟩
  · rw [heq]
    simp [updF]
  · rw [heq]
    simp [updF]
  · rw [heq]
  · rw [heq]
    simp [updF]
  · intro es e hes he1 he2
    refine autoOff_core (processKey now s) 0 now e es ?_ ?_ ?_ ?_ hes he1 he2
    · rw [heq]
      exact hw
    · rw [heq]
      simp [updF]
    · rw [heq]
      simp [updF]
    · rw [heq]
      simp [updF]

/-- Witness for key2_scenario: from the startup state with digit 2
pending, relay 0 comes on and is off again at the first tick past the
period. -/
theorem key2_scenario_w :
    (processKey 0 { sys0 with dtmfKey := 50 }).relayState 0 = onState 0 ∧
    (runTicks (processKey 0 { sys0 with dtmfKey := 50 })
      (([] : List Nat).map (fun x => (0 + x, 0)) ++
        [(0 + 300001, 0)])).relayState 0 = lnot (onState 0) := by
  have h := key2_scenario { sys0 with dtmfKey := 50 } 0 rfl rfl (by decide)
  exact ⟨h.1, h.2.2.2.2 [] 300001 (by simp) (by decide) (by decide)⟩

end DTMF
